import Mathlib

/-!
Verification of the Risk-Gated Trade Execution Pipeline of the
RobinhoodCryptoBot repository.

All Python floats are embedded as exact rationals (`ℚ`); every claim here
is about exact arithmetic identities, comparisons and state transitions,
none about rounding.  Calendar dates are embedded as integers (`ℤ`),
larger meaning later; wall-clock times in the rate limiter as rationals
measured in seconds.  Python dictionaries appear either as association
lists (when iterated) or as total functions with default `0` (when only
read via `.get(k, 0)`).
-/

namespace RM
/-!
Embedding of `backend/risk_manager.py` (the ATR-based `RiskManager`):
position sizing and the trailing-stop ratchet.
-/

/-- Constructor arguments of `RiskManager.__init__`. -/
structure RMConfig where
  account_balance : ℚ
  max_risk_per_trade : ℚ
  daily_loss_limit : ℚ
  atr_multiplier : ℚ
deriving DecidableEq

/-- Order side; `risk_manager.py` stores sides as the strings
`'buy'` / `'sell'`. -/
inductive Side where
  | buy
  | sell
deriving DecidableEq

/-- `RiskManager.calculate_position_size`.  The leading
`reset_daily_limits()` call only affects `daily_losses`, which is taken
here as an argument (its value after the potential reset).  Mirrors the
source line by line: the stop distance is replaced by `atr *
atr_multiplier` only when `|entry - stop| < atr * 0.5`; the variable
`position_value` is computed from the raw size before the 10%-of-balance
clamp and the final minimum-trade check reads that pre-clamp value. -/
def calculate_position_size (cfg : RMConfig) (daily_losses entry_price
    stop_loss_price atr min_trade_amount : ℚ) : ℚ :=
  if cfg.account_balance * cfg.daily_loss_limit ≤ daily_losses then 0
  else
    let risk_amount := cfg.account_balance * cfg.max_risk_per_trade
    let d0 := |entry_price - stop_loss_price|
    let stop_loss_distance := if d0 < atr * (1/2) then atr * cfg.atr_multiplier else d0
    let position_size := if 0 < stop_loss_distance then risk_amount / stop_loss_distance else 0
    let max_position_value := cfg.account_balance * (1/10)
    let position_value := position_size * entry_price
    let clamped := if max_position_value < position_value
      then max_position_value / entry_price else position_size
    if position_value < min_trade_amount then
      if min_trade_amount ≤ max_position_value then min_trade_amount / entry_price else 0
    else clamped

/-- The value `position_size * entry_price` that
`calculate_position_size` computes before the 10%-of-balance clamp; the
source's final minimum-trade test reads exactly this quantity. -/
def rawPositionValue (cfg : RMConfig) (entry_price stop_loss_price atr : ℚ) : ℚ :=
  let risk_amount := cfg.account_balance * cfg.max_risk_per_trade
  let d0 := |entry_price - stop_loss_price|
  let stop_loss_distance := if d0 < atr * (1/2) then atr * cfg.atr_multiplier else d0
  (if 0 < stop_loss_distance then risk_amount / stop_loss_distance else 0) * entry_price

/-- `RiskManager.calculate_atr_stop_loss` with the default multiplier
(`self.atr_multiplier`), the only form `update_trailing_stop` uses. -/
def calculate_atr_stop_loss (cfg : RMConfig) (current_price atr : ℚ) (side : Side) : ℚ :=
  match side with
  | .buy => current_price - atr * cfg.atr_multiplier
  | .sell => current_price + atr * cfg.atr_multiplier

/-- An entry of `RiskManager.open_positions`; `stop_loss` is absent until
the first trailing-stop update. -/
structure RMPosition where
  side : Side
  quantity : ℚ
  entry_price : ℚ
  stop_loss : Option ℚ
deriving DecidableEq

/-- `RiskManager.update_trailing_stop` for a symbol with an open
position: returns the mutated position and the function's return value. -/
def update_trailing_stop (cfg : RMConfig) (pos : RMPosition)
    (current_price atr : ℚ) : RMPosition × Option ℚ :=
  let new_stop := calculate_atr_stop_loss cfg current_price atr pos.side
  match pos.stop_loss with
  | none => ({ pos with stop_loss := some new_stop }, some new_stop)
  | some current_stop =>
    match pos.side with
    | .buy =>
      if current_stop < new_stop then
        ({ pos with stop_loss := some new_stop }, some new_stop)
      else (pos, some current_stop)
    | .sell =>
      if new_stop < current_stop then
        ({ pos with stop_loss := some new_stop }, some new_stop)
      else (pos, some current_stop)

/-- A sequence of `update_trailing_stop` calls on one open position,
each call given as `(current_price, atr)`. -/
def apply_trailing_calls (cfg : RMConfig) (pos : RMPosition) :
    List (ℚ × ℚ) → RMPosition
  | [] => pos
  | c :: rest =>
    apply_trailing_calls cfg (update_trailing_stop cfg pos c.1 c.2).1 rest

/-- The constructor defaults of `risk_manager.py` with the $100 budget
used throughout the spec's examples. -/
def rmDefault : RMConfig := ⟨100, 1/50, 1/10, 2⟩

end RM

namespace App
/-!
Embedding of `backend/app/risk_manager.py` (the risk gate used by the
trading bot) together with the parts of `backend/app/models.py` and
`backend/app/config.py` it reads.
-/

/-- `models.TradingSignal`. -/
inductive TradingSignal where
  | buy
  | sell
  | hold
deriving DecidableEq

/-- The fields of `models.TradingStrategy` that `validate_trade`
reads. -/
structure TradingStrategy where
  signal : TradingSignal
  confidence : ℚ
  suggested_quantity : Option ℚ
  stop_loss : Option ℚ
  take_profit : Option ℚ
deriving DecidableEq

/-- The fields of `models.Portfolio` that the risk gate reads.
`positions` embeds `portfolio.positions.get(symbol, 0)`: a total map
with default quantity `0`. -/
structure Portfolio where
  total_value : ℚ
  available_cash : ℚ
  positions : String → ℚ

/-- The mutable state of `app.risk_manager.RiskManager`:
`len(self.daily_trades)`, `self.daily_loss` and
`self.last_reset_date`.  The contents of the `daily_trades` list are
never read by the gate's decisions, only its length. -/
structure RiskState where
  daily_trades_count : ℕ
  daily_loss : ℚ
  last_reset_date : ℤ
deriving DecidableEq

/-- The limits the gate reads from `config.settings` and its own
constructor: `trading_budget`, `max_loss_per_trade`,
`daily_loss_limit`, `max_trades_per_day = 20`,
`max_position_size = 0.15` and `min_trade_amount = 5.0`. -/
structure RiskConfig where
  trading_budget : ℚ
  max_loss_per_trade : ℚ
  daily_loss_limit : ℚ
  max_trades_per_day : ℕ
  max_position_size : ℚ
  min_trade_amount : ℚ
deriving DecidableEq

/-- The `settings` defaults: budget $100, 2% per-trade loss, 10% daily
loss, 20 trades/day, 15% position size, $5 minimum trade. -/
def appDefault : RiskConfig := ⟨100, 1/50, 1/10, 20, 3/20, 5⟩

/-- `RiskManager._reset_daily_counters_if_needed`, with the current
date passed explicitly. -/
def resetDailyCountersIfNeeded (s : RiskState) (today : ℤ) : RiskState :=
  if s.last_reset_date < today then ⟨0, 0, today⟩ else s

/-- The dictionary `validate_trade` returns. -/
structure ValidationResult where
  approved : Bool
  reason : String
  adjusted_quantity : ℚ
  stop_loss : Option ℚ
  take_profit : Option ℚ
deriving DecidableEq

/-- `max_trade_value` as computed inside `validate_trade`.  The second
operand is the source's own expression
`trading_budget * max_loss_per_trade / max_loss_per_trade` (which
equals the whole budget whenever `max_loss_per_trade ≠ 0`). -/
def max_trade_value (cfg : RiskConfig) (pf : Portfolio) : ℚ :=
  min (pf.available_cash * cfg.max_position_size)
    (cfg.trading_budget * cfg.max_loss_per_trade / cfg.max_loss_per_trade)

/-- `suggested_value = (strategy.suggested_quantity or 0.1) *
portfolio.total_value`; Python's `or` falls back to `0.1` both when the
field is `None` and when it is `0.0`. -/
def suggested_value (strat : TradingStrategy) (pf : Portfolio) : ℚ :=
  (match strat.suggested_quantity with
    | some q => if q = 0 then 1/10 else q
    | none => 1/10) * pf.total_value

/-- `trade_value = min(suggested_value, max_trade_value)`. -/
def trade_value (cfg : RiskConfig) (strat : TradingStrategy) (pf : Portfolio) : ℚ :=
  min (suggested_value strat pf) (max_trade_value cfg pf)

/-- The buy-side stop-loss sanity check of `validate_trade`:
`if strategy.stop_loss and strategy.stop_loss >= current_price`, the
stop is replaced by `current_price * (1 - max_loss_per_trade)`.
Python's truthiness makes both `None` and `0.0` skip the adjustment. -/
def adjStopLossBuy (cfg : RiskConfig) (sl : Option ℚ) (price : ℚ) : Option ℚ :=
  match sl with
  | some v => if v ≠ 0 ∧ price ≤ v then some (price * (1 - cfg.max_loss_per_trade)) else some v
  | none => none

/-- The buy-side take-profit sanity check of `validate_trade`. -/
def adjTakeProfitBuy (cfg : RiskConfig) (tp : Option ℚ) (price : ℚ) : Option ℚ :=
  match tp with
  | some v => if v ≠ 0 ∧ v ≤ price then some (price * (1 + cfg.max_loss_per_trade * 2)) else some v
  | none => none

/-- The sell-side stop-loss sanity check of `validate_trade`. -/
def adjStopLossSell (cfg : RiskConfig) (sl : Option ℚ) (price : ℚ) : Option ℚ :=
  match sl with
  | some v => if v ≠ 0 ∧ v ≤ price then some (price * (1 + cfg.max_loss_per_trade)) else some v
  | none => none

/-- The sell-side take-profit sanity check of `validate_trade`. -/
def adjTakeProfitSell (cfg : RiskConfig) (tp : Option ℚ) (price : ℚ) : Option ℚ :=
  match tp with
  | some v => if v ≠ 0 ∧ price ≤ v then some (price * (1 - cfg.max_loss_per_trade * 2)) else some v
  | none => none

/-- `RiskManager.validate_trade`.  Returns the state after the method
(only `_reset_daily_counters_if_needed` mutates it) and the returned
dictionary.  Reason strings keep the source's wording with the
f-string-interpolated numbers omitted, except the sell rejection, which
is kept verbatim. -/
def validate_trade (cfg : RiskConfig) (s : RiskState) (today : ℤ)
    (strat : TradingStrategy) (pf : Portfolio) (symbol : String)
    (current_price : ℚ) : RiskState × ValidationResult :=
  let s := resetDailyCountersIfNeeded s today
  let base : ValidationResult := ⟨false, "", 0, strat.stop_loss, strat.take_profit⟩
  if cfg.max_trades_per_day ≤ s.daily_trades_count then
    (s, { base with reason := "Daily trade limit reached" })
  else if cfg.trading_budget * cfg.daily_loss_limit ≤ s.daily_loss then
    (s, { base with reason := "Daily loss limit reached" })
  else if strat.confidence < 3/10 then
    (s, { base with reason := "Strategy confidence too low" })
  else
    let tv := trade_value cfg strat pf
    if tv < cfg.min_trade_amount then
      (s, { base with reason := "Trade value too small" })
    else
      let adjusted_quantity := tv / current_price
      if strat.signal = .buy ∧ pf.available_cash < tv then
        (s, { base with reason := "Insufficient funds" })
      else
        let held := pf.positions symbol
        let aq := if strat.signal = .sell ∧ held < adjusted_quantity
          then held else adjusted_quantity
        if strat.signal = .sell ∧ held < adjusted_quantity ∧ aq ≤ 0 then
          (s, { base with reason := "No " ++ symbol ++ " position to sell" })
        else
          let sl := match strat.signal with
            | .buy => adjStopLossBuy cfg strat.stop_loss current_price
            | .sell => adjStopLossSell cfg strat.stop_loss current_price
            | .hold => strat.stop_loss
          let tp := match strat.signal with
            | .buy => adjTakeProfitBuy cfg strat.take_profit current_price
            | .sell => adjTakeProfitSell cfg strat.take_profit current_price
            | .hold => strat.take_profit
          (s, ⟨true, "Trade approved", aq, sl, tp⟩)

/-- `RiskManager.record_trade`: reset if needed, append the record
(the count grows by one), and accumulate `abs(pnl)` into `daily_loss`
only when `pnl` is negative.  `pnl = portfolio_value_after -
portfolio_value_before` is passed already computed. -/
def record_trade (s : RiskState) (today : ℤ) (pnl : ℚ) : RiskState :=
  let s := resetDailyCountersIfNeeded s today
  { daily_trades_count := s.daily_trades_count + 1
    daily_loss := if pnl < 0 then s.daily_loss + |pnl| else s.daily_loss
    last_reset_date := s.last_reset_date }

/-- `RiskManager.emergency_stop`: sets `daily_loss` to the daily limit
`trading_budget * daily_loss_limit`; nothing else changes. -/
def emergency_stop (cfg : RiskConfig) (s : RiskState) : RiskState :=
  { s with daily_loss := cfg.trading_budget * cfg.daily_loss_limit }

/-- `RiskManager._is_trading_enabled`. -/
def is_trading_enabled (cfg : RiskConfig) (s : RiskState) (pf : Portfolio) : Bool :=
  if cfg.max_trades_per_day ≤ s.daily_trades_count then false
  else if cfg.trading_budget * cfg.daily_loss_limit ≤ s.daily_loss then false
  else if pf.total_value < cfg.trading_budget * (1/2) then false
  else true

/-- `RiskManager._calculate_risk_level`: bands on
`daily_loss / trading_budget * 100`. -/
def calculate_risk_level (cfg : RiskConfig) (s : RiskState) : String :=
  let loss_percentage := s.daily_loss / cfg.trading_budget * 100
  if 8 ≤ loss_percentage then "HIGH"
  else if 5 ≤ loss_percentage then "MEDIUM"
  else "LOW"

/-- The fields of the `get_risk_metrics` dictionary the claims read. -/
structure RiskMetrics where
  daily_trades_count : ℕ
  daily_loss : ℚ
  risk_level : String
  trading_enabled : Bool
deriving DecidableEq

/-- `RiskManager.get_risk_metrics`: resets if needed, then reports. -/
def get_risk_metrics (cfg : RiskConfig) (s : RiskState) (today : ℤ)
    (pf : Portfolio) : RiskState × RiskMetrics :=
  let s := resetDailyCountersIfNeeded s today
  (s, ⟨s.daily_trades_count, s.daily_loss, calculate_risk_level cfg s,
    is_trading_enabled cfg s pf⟩)

/-- One public risk-gate operation, tagged with the calendar date at
which it runs (`emergency_stop` never reads the date). -/
inductive RiskOp where
  | validate (today : ℤ) (strat : TradingStrategy) (pf : Portfolio)
      (symbol : String) (price : ℚ)
  | recordTrade (today : ℤ) (pnl : ℚ)
  | getMetrics (today : ℤ) (pf : Portfolio)
  | emergencyStop

/-- The date an operation observes, if any. -/
def opDate : RiskOp → Option ℤ
  | .validate d _ _ _ _ => some d
  | .recordTrade d _ => some d
  | .getMetrics d _ => some d
  | .emergencyStop => none

/-- The state transition of one risk-gate operation. -/
def applyRiskOp (cfg : RiskConfig) (s : RiskState) : RiskOp → RiskState
  | .validate d strat pf sym price => (validate_trade cfg s d strat pf sym price).1
  | .recordTrade d pnl => record_trade s d pnl
  | .getMetrics d pf => (get_risk_metrics cfg s d pf).1
  | .emergencyStop => emergency_stop cfg s

/-- A sequence of risk-gate operations, applied left to right. -/
def applyRiskOps (cfg : RiskConfig) (s : RiskState) : List RiskOp → RiskState
  | [] => s
  | op :: rest => applyRiskOps cfg (applyRiskOp cfg s op) rest

/-- `true` when every dated operation of the list runs on or before the
calendar date `L` (no day rollover happens during the list). -/
def opsSameDay (L : ℤ) : List RiskOp → Bool
  | [] => true
  | op :: rest =>
    (match opDate op with
      | some d => decide (d ≤ L)
      | none => true) && opsSameDay L rest

end App

namespace Exec
/-!
Embedding of `backend/app/execution_module.py`: the paper-trading
ledger, the order-status query and the sliding-window rate limiter.
-/

/-- `models.OrderType`. -/
inductive OrderType where
  | market
  | limit
  | stopOrder
  | stopLimit
deriving DecidableEq

/-- `models.OrderSide`. -/
inductive OrderSide where
  | buy
  | sell
deriving DecidableEq

/-- `models.OrderStatus`. -/
inductive OrderStatus where
  | pending
  | filled
  | cancelled
  | rejected
deriving DecidableEq

/-- `models.Trade` (the `timestamp` field is dropped: no claim reads
it). -/
structure Trade where
  id : Option String
  symbol : String
  side : OrderSide
  order_type : OrderType
  quantity : ℚ
  price : Option ℚ
  status : OrderStatus
  filled_price : Option ℚ
  filled_quantity : Option ℚ
deriving DecidableEq

/-- `self.paper_portfolio`, with the positions dictionary as an
association list in insertion order. -/
structure PaperPortfolio where
  cash : ℚ
  positions : List (String × ℚ)
  total_value : ℚ
deriving DecidableEq

/-- `positions.get(symbol, 0)`. -/
def getQty (ps : List (String × ℚ)) (sym : String) : ℚ :=
  match ps with
  | [] => 0
  | (k, v) :: t => if k = sym then v else getQty t sym

/-- `positions[symbol] = q`: overwrite the existing key or append. -/
def setQty (ps : List (String × ℚ)) (sym : String) (q : ℚ) : List (String × ℚ) :=
  match ps with
  | [] => [(sym, q)]
  | (k, v) :: t => if k = sym then (k, q) :: t else (k, v) :: setQty t sym q

/-- The mark-to-market sum of the `total_value` recomputation: every
position is valued at the current order's execution price. -/
def sumPositions (ps : List (String × ℚ)) (price : ℚ) : ℚ :=
  match ps with
  | [] => 0
  | (_, v) :: t => v * price + sumPositions t price

/-- `ExecutionModule._place_paper_order`.  `nPaperTrades` is
`len(self.paper_trades)` and `now` the integer `time.time()`, used only
for the order id.  For a market order the execution price is
`price or 50000.0` (Python truthiness: `None` and `0.0` both fall back
to the default); for other order types it is `price` itself, and when
that is `None` the subsequent arithmetic raises, embedded as `none`.
Regardless of fill or rejection, `total_value` is recomputed as cash
plus every position times this order's execution price. -/
def place_paper_order (pf : PaperPortfolio) (nPaperTrades now : ℕ)
    (symbol : String) (side : OrderSide) (order_type : OrderType)
    (quantity : ℚ) (price : Option ℚ) :
    Option (PaperPortfolio × Trade) :=
  let order_id := "paper_" ++ toString now ++ "_" ++ toString nPaperTrades
  let ep? : Option ℚ :=
    match order_type, price with
    | .market, some p => if p = 0 then some 50000 else some p
    | .market, none => some 50000
    | _, p => p
  match ep? with
  | none => none
  | some execution_price =>
    let trade0 : Trade := ⟨some order_id, symbol, side, order_type, quantity,
      price, .filled, some execution_price, some quantity⟩
    let next : PaperPortfolio × Trade :=
      match side with
      | .buy =>
        let cost := quantity * execution_price
        if cost ≤ pf.cash then
          ({ pf with cash := pf.cash - cost
                     positions := setQty pf.positions symbol
                       (getQty pf.positions symbol + quantity) }, trade0)
        else (pf, { trade0 with status := .rejected })
      | .sell =>
        let current_position := getQty pf.positions symbol
        if quantity ≤ current_position then
          ({ pf with cash := pf.cash + quantity * execution_price
                     positions := setQty pf.positions symbol
                       (current_position - quantity) }, trade0)
        else (pf, { trade0 with status := .rejected })
    some ({ next.1 with total_value :=
      next.1.cash + sumPositions next.1.positions execution_price }, next.2)

/-- `ExecutionModule.get_order_status`: in paper-trading mode the
branch returns `OrderStatus.FILLED` unconditionally, ignoring the order
id; otherwise the broker-reported status (here a parameter) is
returned. -/
def get_order_status (paper_trading_mode : Bool) (liveStatus : OrderStatus)
    (order_id : String) : OrderStatus :=
  if paper_trading_mode then .filled else liveStatus

/-- `ExecutionModule._check_rate_limit`: trim `request_timestamps` to
the last 60 seconds; under 100 kept entries, record `now` and allow,
else refuse without recording.  Times are `time.time()` seconds. -/
def check_rate_limit (timestamps : List ℚ) (now : ℚ) : Bool × List ℚ :=
  let ts := timestamps.filter (fun t => decide (now - t < 60))
  if ts.length < 100 then (true, ts ++ [now]) else (false, ts)

/-- The rate-limit fragment of `ExecutionModule._place_real_order`:
when `_check_rate_limit` refuses, the coroutine sleeps one second and
then proceeds to submit anyway, so the send happens at `now + 1`;
otherwise it submits at `now`.  Returns the limiter window and the time
the request goes out. -/
def place_real_order_send (timestamps : List ℚ) (now : ℚ) : List ℚ × ℚ :=
  let r := check_rate_limit timestamps now
  (r.2, if r.1 then now else now + 1)

/-- A sequence of live order placements at the given call times,
threading the limiter window; returns the send times, one per call. -/
def run_orders (timestamps : List ℚ) : List ℚ → List ℚ
  | [] => []
  | c :: rest =>
    let r := place_real_order_send timestamps c
    r.2 :: run_orders r.1 rest

end Exec

namespace SE
/-!
Embedding of `backend/strategy_engine.py`'s `_combine_signals`:
weighting, thresholds and strength.
-/

/-- The emitted action string. -/
inductive Action where
  | buy
  | sell
  | hold
deriving DecidableEq

/-- The weighted composite score `technical*0.3 + ml*0.7`. -/
def weighted_signal (technical_signal ml_signal : ℤ) : ℚ :=
  (technical_signal : ℚ) * (3/10) + (ml_signal : ℚ) * (7/10)

/-- The decision core of `StrategyEngine._combine_signals`: the
weighted score `technical*0.3 + ml*0.7` against the `1.2` / `0.8`
thresholds and the strength formulas, with `technical ∈ {-1,0,1}` from
`generate_signals` and `ml ∈ {0,1,2}` from the classifier.  Returns
`(action, strength)`. -/
def combine_signals (confidence_threshold : ℚ) (technical_signal ml_signal : ℤ)
    (ml_confidence : ℚ) : Action × ℚ :=
  let weighted := weighted_signal technical_signal ml_signal
  if 12/10 ≤ weighted ∧ confidence_threshold ≤ ml_confidence then
    (.buy, min (weighted - 8/10) 1 * ml_confidence)
  else if weighted ≤ 8/10 ∧ confidence_threshold ≤ ml_confidence then
    (.sell, (12/10 - weighted) * ml_confidence)
  else (.hold, 0)

end SE

namespace Mon
/-!
Embedding of `backend/monitoring.py`'s `TradingBotMonitor`: the
error-count bookkeeping of `monitor_health` and `restart_bot`.
Wall-clock staleness (`last_successful_cycle` against
`restart_threshold`) is abstracted into the boolean input `stalled`.
-/

/-- `max_errors` from `TradingBotMonitor.__init__`. -/
def max_errors : ℕ := 5

/-- The effect of `TradingBotMonitor.restart_bot` on `error_count`:
reset on a successful start, increment on failure (the critical
"manual intervention required" log when the count reaches `max_errors`
has no state effect). -/
def restart_bot_count (error_count : ℕ) (start_ok : Bool) : ℕ :=
  if start_ok then 0 else error_count + 1

/-- One pass of `TradingBotMonitor.monitor_health`: given whether the
bot is running, whether the last success is stale, whether the API
health check succeeds and whether a restart's `start()` would succeed,
returns the new `error_count` and how many times `restart_bot`
(a `stop()` + `start()` of the bot) was invoked in this pass. -/
def monitor_health (error_count : ℕ) (running stalled health_ok start_ok : Bool) :
    ℕ × ℕ :=
  if running then
    let p1 : ℕ × ℕ :=
      if stalled then (restart_bot_count error_count start_ok, 1) else (error_count, 0)
    if health_ok then (0, p1.2)
    else
      let c2 := p1.1 + 1
      if max_errors ≤ c2 then (restart_bot_count c2 start_ok, p1.2 + 1)
      else (c2, p1.2)
  else (error_count, 0)

/-- Successive `monitor_health` passes with constant environment,
returning the total number of `restart_bot` invocations. -/
def run_monitor (error_count : ℕ) (running stalled health_ok start_ok : Bool) :
    ℕ → ℕ × ℕ
  | 0 => (error_count, 0)
  | n + 1 =>
    let r := monitor_health error_count running stalled health_ok start_ok
    let rest := run_monitor r.1 running stalled health_ok start_ok n
    (rest.1, r.2 + rest.2)

end Mon

/-!
## Claim C1 — position sizing

The spec's formula `stop_distance = max(|entry − stop|, ATR × multiplier)`
does not match the source: `calculate_position_size` replaces the raw
distance by `ATR × atr_multiplier` only when it is below `ATR × 0.5`.
At the spec's own example (balance 100, risk 2%, entry 50000, stop
49000, ATR 800) the raw distance 1000 is kept (1000 ≥ 400), the raw
size is 2/1000 = 0.002, and the 10%-of-balance cap then clamps the
result to 10/50000 = 0.0002 — not 0.00125.
-/

/-- C1 counterexample: at the spec's example input the function returns
0.0002, not the claimed 2/1600 = 0.00125. -/
theorem c1_sizing_counterexample :
    RM.calculate_position_size RM.rmDefault 0 50000 49000 800 5 ≠ 1/800 := by
  norm_num [RM.calculate_position_size, RM.rmDefault, abs]

/-- C1 (amended): with the defaults and the example input the stop
distance kept is the raw 1000 (it is not below ATR×0.5), the raw size
2/1000 is clamped by the 10%-of-balance cap, and the returned size is
0.0002; and whenever the daily loss is under its limit and the
pre-clamp position value `rawPositionValue` is below the minimum trade
amount, the returned size is `min_trade_amount / entry_price` if the
minimum trade amount is at most the 10%-of-balance cap, else 0 (the
trade is rejected as too small). -/
theorem c1_position_sizing (cfg : RM.RMConfig) (dl e sp atr mta : ℚ)
    (hdl : dl < cfg.account_balance * cfg.daily_loss_limit)
    (hraw : RM.rawPositionValue cfg e sp atr < mta) :
    RM.calculate_position_size RM.rmDefault 0 50000 49000 800 5 = 1/5000 ∧
    RM.calculate_position_size cfg dl e sp atr mta =
      (if mta ≤ cfg.account_balance * (1/10) then mta / e else 0) := by
  constructor
  · norm_num [RM.calculate_position_size, RM.rmDefault, abs]
  · simp only [RM.rawPositionValue] at hraw
    simp only [RM.calculate_position_size]
    rw [if_neg (not_le.2 hdl), if_pos hraw]

/-- C1 witness: the amended theorem applied at the example input and at
an input (ATR 20000) whose pre-clamp value 2.5 is below the $5 minimum,
where the size is raised to 5/50000. -/
theorem c1_position_sizing_witness :
    RM.calculate_position_size RM.rmDefault 0 50000 49000 800 5 = 1/5000 ∧
    RM.calculate_position_size RM.rmDefault 0 50000 49000 20000 5 =
      (if (5:ℚ) ≤ RM.rmDefault.account_balance * (1/10) then 5 / 50000 else 0) :=
  c1_position_sizing RM.rmDefault 0 50000 49000 20000 5
    (by norm_num [RM.rmDefault])
    (by norm_num [RM.rawPositionValue, RM.rmDefault, abs])

/-!
## Claim C4 — trailing-stop monotone ratchet
-/

/-- One trailing-stop update never changes the position's side. -/
theorem update_trailing_stop_side (cfg : RM.RMConfig) (pos : RM.RMPosition)
    (p a : ℚ) : ((RM.update_trailing_stop cfg pos p a).1).side = pos.side := by
  rcases pos with ⟨side, q, e, sl⟩
  cases sl <;> cases side <;>
    simp only [RM.update_trailing_stop] <;> split_ifs <;> rfl

/-- For a long position with a stored stop, one update yields a stored
stop that is at least the old one. -/
theorem trailing_step_buy (cfg : RM.RMConfig) (pos : RM.RMPosition) (p a s : ℚ)
    (hside : pos.side = .buy) (hs : pos.stop_loss = some s) :
    ∃ s2, ((RM.update_trailing_stop cfg pos p a).1).stop_loss = some s2 ∧ s ≤ s2 := by
  simp only [RM.update_trailing_stop, hs, hside]
  split_ifs with h
  · exact ⟨_, rfl, le_of_lt h⟩
  · exact ⟨s, hs, le_refl s⟩

/-- For a short position with a stored stop, one update yields a stored
stop that is at most the old one. -/
theorem trailing_step_sell (cfg : RM.RMConfig) (pos : RM.RMPosition) (p a s : ℚ)
    (hside : pos.side = .sell) (hs : pos.stop_loss = some s) :
    ∃ s2, ((RM.update_trailing_stop cfg pos p a).1).stop_loss = some s2 ∧ s2 ≤ s := by
  simp only [RM.update_trailing_stop, hs, hside]
  split_ifs with h
  · exact ⟨_, rfl, le_of_lt h⟩
  · exact ⟨s, hs, le_refl s⟩

/-- Over any call sequence, a long position's stored stop never
decreases. -/
theorem trailing_calls_buy (cfg : RM.RMConfig) (calls : List (ℚ × ℚ)) :
    ∀ (pos : RM.RMPosition) (s : ℚ), pos.side = .buy → pos.stop_loss = some s →
    ∃ s2, (RM.apply_trailing_calls cfg pos calls).stop_loss = some s2 ∧ s ≤ s2 := by
  induction calls with
  | nil => exact fun pos s _ hs => ⟨s, hs, le_refl s⟩
  | cons c rest ih =>
    intro pos s hside hs
    obtain ⟨s2, hs2, hle⟩ := trailing_step_buy cfg pos c.1 c.2 s hside hs
    have hside2 : ((RM.update_trailing_stop cfg pos c.1 c.2).1).side = .buy := by
      rw [update_trailing_stop_side, hside]
    obtain ⟨s3, hs3, hle2⟩ := ih _ s2 hside2 hs2
    exact ⟨s3, hs3, le_trans hle hle2⟩

/-- Over any call sequence, a short position's stored stop never
increases. -/
theorem trailing_calls_sell (cfg : RM.RMConfig) (calls : List (ℚ × ℚ)) :
    ∀ (pos : RM.RMPosition) (s : ℚ), pos.side = .sell → pos.stop_loss = some s →
    ∃ s2, (RM.apply_trailing_calls cfg pos calls).stop_loss = some s2 ∧ s2 ≤ s := by
  induction calls with
  | nil => exact fun pos s _ hs => ⟨s, hs, le_refl s⟩
  | cons c rest ih =>
    intro pos s hside hs
    obtain ⟨s2, hs2, hle⟩ := trailing_step_sell cfg pos c.1 c.2 s hside hs
    have hside2 : ((RM.update_trailing_stop cfg pos c.1 c.2).1).side = .sell := by
      rw [update_trailing_stop_side, hside]
    obtain ⟨s3, hs3, hle2⟩ := ih _ s2 hside2 hs2
    exact ⟨s3, hs3, le_trans hle2 hle⟩

/-- C4: the trailing stop is a monotone ratchet.  Across every sequence
of `update_trailing_stop` calls, the stored stop of a long (buy)
position never decreases and the stored stop of a short (sell) position
never increases; and in a single call whose newly computed ATR stop
would move against the position, the position and the returned stop are
left exactly unchanged. -/
theorem c4_trailing_stop_ratchet (cfg : RM.RMConfig) (pos : RM.RMPosition)
    (calls : List (ℚ × ℚ)) (s p a : ℚ) (hs : pos.stop_loss = some s) :
    (pos.side = .buy →
      ∃ s2, (RM.apply_trailing_calls cfg pos calls).stop_loss = some s2 ∧ s ≤ s2) ∧
    (pos.side = .sell →
      ∃ s2, (RM.apply_trailing_calls cfg pos calls).stop_loss = some s2 ∧ s2 ≤ s) ∧
    (pos.side = .buy → RM.calculate_atr_stop_loss cfg p a .buy ≤ s →
      RM.update_trailing_stop cfg pos p a = (pos, some s)) ∧
    (pos.side = .sell → s ≤ RM.calculate_atr_stop_loss cfg p a .sell →
      RM.update_trailing_stop cfg pos p a = (pos, some s)) := by
  refine ⟨fun h => trailing_calls_buy cfg calls pos s h hs,
    fun h => trailing_calls_sell cfg calls pos s h hs, fun h hle => ?_, fun h hle => ?_⟩
  · simp only [RM.update_trailing_stop, hs, h]
    rw [if_neg (not_lt.2 hle)]
  · simp only [RM.update_trailing_stop, hs, h]
    rw [if_neg (not_lt.2 hle)]

/-- C4 witness: a long position with stop 90 under calls at prices
110 then 105 (ATR 5, multiplier 2) keeps a stop at least 90, and a call
at price 80 (new stop 70 ≤ 90) leaves it unchanged. -/
theorem c4_trailing_stop_ratchet_witness :
    ∃ s2, (RM.apply_trailing_calls RM.rmDefault ⟨.buy, 1, 100, some 90⟩
      [(110, 5), (105, 5)]).stop_loss = some s2 ∧ (90:ℚ) ≤ s2 :=
  (c4_trailing_stop_ratchet RM.rmDefault ⟨.buy, 1, 100, some 90⟩
    [(110, 5), (105, 5)] 90 80 5 rfl).1 rfl

/-!
## Claims C3 and C5 — risk-gate state machine
-/

/-- On a date that is not after the stored reset date, the daily reset
does nothing. -/
theorem reset_noop (s : App.RiskState) (d : ℤ) (h : ¬ s.last_reset_date < d) :
    App.resetDailyCountersIfNeeded s d = s := by
  simp only [App.resetDailyCountersIfNeeded, if_neg h]

/-- `validate_trade` mutates the gate state only through the daily
reset. -/
theorem validate_trade_state (cfg : App.RiskConfig) (s : App.RiskState) (d : ℤ)
    (strat : App.TradingStrategy) (pf : App.Portfolio) (sym : String) (price : ℚ) :
    (App.validate_trade cfg s d strat pf sym price).1 =
      App.resetDailyCountersIfNeeded s d := by
  simp only [App.validate_trade]
  split_ifs <;> rfl

/-- Once the daily loss has reached the limit, trading is reported
disabled whatever the portfolio. -/
theorem disabled_of_loss (cfg : App.RiskConfig) (s : App.RiskState)
    (pf : App.Portfolio)
    (h : cfg.trading_budget * cfg.daily_loss_limit ≤ s.daily_loss) :
    App.is_trading_enabled cfg s pf = false := by
  by_cases h1 : cfg.max_trades_per_day ≤ s.daily_trades_count
  · simp [App.is_trading_enabled, h1]
  · simp [App.is_trading_enabled, h1, h]

/-- Any same-day sequence of gate operations keeps the reset date and
keeps the daily loss at or above the daily limit once it is there. -/
theorem riskOps_preserve_loss_floor (cfg : App.RiskConfig) (L : ℤ)
    (ops : List App.RiskOp) : ∀ s : App.RiskState, s.last_reset_date = L →
    cfg.trading_budget * cfg.daily_loss_limit ≤ s.daily_loss →
    App.opsSameDay L ops = true →
    (App.applyRiskOps cfg s ops).last_reset_date = L ∧
    cfg.trading_budget * cfg.daily_loss_limit ≤ (App.applyRiskOps cfg s ops).daily_loss := by
  induction ops with
  | nil => exact fun s hL hloss _ => ⟨hL, hloss⟩
  | cons op rest ih =>
    intro s hL hloss hops
    simp only [App.opsSameDay, Bool.and_eq_true] at hops
    have hstep : (App.applyRiskOp cfg s op).last_reset_date = L ∧
        cfg.trading_budget * cfg.daily_loss_limit ≤ (App.applyRiskOp cfg s op).daily_loss := by
      cases op with
      | validate d strat pf sym price =>
        have hd : d ≤ L := by simpa [App.opDate] using hops.1
        simp only [App.applyRiskOp]
        rw [validate_trade_state, reset_noop _ _ (by omega)]
        exact ⟨hL, hloss⟩
      | recordTrade d pnl =>
        have hd : d ≤ L := by simpa [App.opDate] using hops.1
        simp only [App.applyRiskOp, App.record_trade]
        rw [reset_noop _ _ (by omega)]
        refine ⟨hL, ?_⟩
        split_ifs
        · exact le_add_of_le_of_nonneg hloss (abs_nonneg pnl)
        · exact hloss
      | getMetrics d pf =>
        have hd : d ≤ L := by simpa [App.opDate] using hops.1
        simp only [App.applyRiskOp, App.get_risk_metrics]
        rw [reset_noop _ _ (by omega)]
        exact ⟨hL, hloss⟩
      | emergencyStop =>
        exact ⟨hL, le_refl _⟩
    exact ih _ hstep.1 hstep.2 hops.2

/-- C3: after `emergency_stop`, trading stays disabled for the rest of
the calendar day.  Whatever same-day gate operations follow
(validations, trade records, metric queries, further emergency stops),
`_is_trading_enabled` and the `trading_enabled` field of
`get_risk_metrics` are `false` for every portfolio; `emergency_stop` is
idempotent; and only a day rollover clears the forced loss back to
zero. -/
theorem c3_emergency_stop_disables (cfg : App.RiskConfig) (s : App.RiskState)
    (ops : List App.RiskOp) (pf pf2 : App.Portfolio) (d2 : ℤ)
    (hops : App.opsSameDay s.last_reset_date ops = true)
    (hd2 : d2 ≤ s.last_reset_date) :
    App.is_trading_enabled cfg
      (App.applyRiskOps cfg (App.emergency_stop cfg s) ops) pf = false ∧
    (App.get_risk_metrics cfg
      (App.applyRiskOps cfg (App.emergency_stop cfg s) ops) d2 pf2).2.trading_enabled
      = false ∧
    App.emergency_stop cfg (App.emergency_stop cfg s) = App.emergency_stop cfg s ∧
    (∀ d3, s.last_reset_date < d3 →
      (App.resetDailyCountersIfNeeded (App.emergency_stop cfg s) d3).daily_loss = 0) := by
  have hstart : (App.emergency_stop cfg s).last_reset_date = s.last_reset_date := rfl
  have hloss : cfg.trading_budget * cfg.daily_loss_limit ≤
      (App.emergency_stop cfg s).daily_loss := le_refl _
  obtain ⟨hL, hfloor⟩ := riskOps_preserve_loss_floor cfg s.last_reset_date ops
    (App.emergency_stop cfg s) hstart hloss hops
  refine ⟨disabled_of_loss cfg _ pf hfloor, ?_, rfl, ?_⟩
  · simp only [App.get_risk_metrics]
    rw [reset_noop _ _ (by omega)]
    exact disabled_of_loss cfg _ pf2 hfloor
  · intro d3 h3
    simp only [App.resetDailyCountersIfNeeded]
    rw [if_pos (by omega)]

/-- C3 witness: with the default limits, a gate that emergency-stopped
on day 0 reports trading disabled after a same-day losing trade and a
same-day metrics query, a repeated emergency stop changes nothing, and
a rollover to day 1 clears the forced loss. -/
theorem c3_emergency_stop_disables_witness :
    App.is_trading_enabled App.appDefault
      (App.applyRiskOps App.appDefault
        (App.emergency_stop App.appDefault ⟨3, 2, 0⟩)
        [.recordTrade 0 (-2), .emergencyStop]) ⟨100, 100, fun _ => 0⟩ = false ∧
    (App.get_risk_metrics App.appDefault
      (App.applyRiskOps App.appDefault
        (App.emergency_stop App.appDefault ⟨3, 2, 0⟩)
        [.recordTrade 0 (-2), .emergencyStop]) 0
      ⟨100, 100, fun _ => 0⟩).2.trading_enabled = false ∧
    App.emergency_stop App.appDefault
      (App.emergency_stop App.appDefault ⟨3, 2, 0⟩) =
      App.emergency_stop App.appDefault ⟨3, 2, 0⟩ ∧
    (App.resetDailyCountersIfNeeded
      (App.emergency_stop App.appDefault ⟨3, 2, 0⟩) 1).daily_loss = 0 := by
  have h := c3_emergency_stop_disables App.appDefault ⟨3, 2, 0⟩
    [.recordTrade 0 (-2), .emergencyStop] ⟨100, 100, fun _ => 0⟩
    ⟨100, 100, fun _ => 0⟩ 0 (by decide) (by decide)
  exact ⟨h.1, h.2.1, h.2.2.1, h.2.2.2 1 (by decide)⟩

/-- C5: within one calendar day the daily counters only grow — any
dated gate operation (validate, record_trade, get_risk_metrics) leaves
the trade count and the accumulated loss no smaller and keeps the reset
date; on the first operation after a date rollover the counters are
reset to exactly zero (the operation behaves as if run from the zeroed
state stamped with the new date); and the reset is idempotent, so it
fires exactly once per date transition. -/
theorem c5_daily_counters (cfg : App.RiskConfig) (s : App.RiskState)
    (op : App.RiskOp) (d : ℤ) (hop : App.opDate op = some d) :
    (¬ s.last_reset_date < d →
      s.daily_trades_count ≤ (App.applyRiskOp cfg s op).daily_trades_count ∧
      s.daily_loss ≤ (App.applyRiskOp cfg s op).daily_loss ∧
      (App.applyRiskOp cfg s op).last_reset_date = s.last_reset_date) ∧
    (s.last_reset_date < d →
      App.resetDailyCountersIfNeeded s d = ⟨0, 0, d⟩ ∧
      App.applyRiskOp cfg s op = App.applyRiskOp cfg ⟨0, 0, d⟩ op) ∧
    App.resetDailyCountersIfNeeded (App.resetDailyCountersIfNeeded s d) d =
      App.resetDailyCountersIfNeeded s d := by
  have hreset_roll : s.last_reset_date < d →
      App.resetDailyCountersIfNeeded s d = ⟨0, 0, d⟩ := fun h => by
    simp only [App.resetDailyCountersIfNeeded, if_pos h]
  have hreset_zero : App.resetDailyCountersIfNeeded (⟨0, 0, d⟩ : App.RiskState) d =
      ⟨0, 0, d⟩ := by
    simp only [App.resetDailyCountersIfNeeded]
    rw [if_neg (lt_irrefl d)]
  refine ⟨fun hsame => ?_, fun hroll => ⟨hreset_roll hroll, ?_⟩, ?_⟩
  · cases op with
    | validate d0 strat pf sym price =>
      have : d0 = d := by simpa [App.opDate] using hop
      subst this
      simp only [App.applyRiskOp]
      rw [validate_trade_state, reset_noop _ _ hsame]
      exact ⟨le_refl _, le_refl _, rfl⟩
    | recordTrade d0 pnl =>
      have : d0 = d := by simpa [App.opDate] using hop
      subst this
      simp only [App.applyRiskOp, App.record_trade]
      rw [reset_noop _ _ hsame]
      refine ⟨Nat.le_succ _, ?_, rfl⟩
      split_ifs
      · exact le_add_of_nonneg_right (abs_nonneg pnl)
      · exact le_refl _
    | getMetrics d0 pf =>
      have : d0 = d := by simpa [App.opDate] using hop
      subst this
      simp only [App.applyRiskOp, App.get_risk_metrics]
      rw [reset_noop _ _ hsame]
      exact ⟨le_refl _, le_refl _, rfl⟩
    | emergencyStop => simp [App.opDate] at hop
  · cases op with
    | validate d0 strat pf sym price =>
      have : d0 = d := by simpa [App.opDate] using hop
      subst this
      simp only [App.applyRiskOp]
      rw [validate_trade_state, validate_trade_state, hreset_roll hroll, hreset_zero]
    | recordTrade d0 pnl =>
      have : d0 = d := by simpa [App.opDate] using hop
      subst this
      simp only [App.applyRiskOp, App.record_trade]
      rw [hreset_roll hroll, hreset_zero]
    | getMetrics d0 pf =>
      have : d0 = d := by simpa [App.opDate] using hop
      subst this
      simp only [App.applyRiskOp, App.get_risk_metrics]
      rw [hreset_roll hroll, hreset_zero]
    | emergencyStop => simp [App.opDate] at hop
  · by_cases h : s.last_reset_date < d
    · rw [hreset_roll h, hreset_zero]
    · rw [reset_noop _ _ h, reset_noop _ _ h]

/-- C5 witness: recording a losing trade on day 1 from a day-0 state
first zeroes both counters, behaving exactly as from the fresh day-1
state. -/
theorem c5_daily_counters_witness :
    App.resetDailyCountersIfNeeded ⟨3, 7, 0⟩ 1 = (⟨0, 0, 1⟩ : App.RiskState) ∧
    App.applyRiskOp App.appDefault ⟨3, 7, 0⟩ (.recordTrade 1 (-2)) =
      App.applyRiskOp App.appDefault ⟨0, 0, 1⟩ (.recordTrade 1 (-2)) :=
  (c5_daily_counters App.appDefault ⟨3, 7, 0⟩ (.recordTrade 1 (-2)) 1 rfl).2.1
    (by decide)

/-!
## Claim C6 — sell quantity clamping
-/

/-- C6: for a sell signal that passes the daily-limit, loss-limit,
confidence and minimum-value gates, if the computed quantity
`trade_value / price` exceeds the held position the approved quantity
is clamped to exactly the held quantity (never oversold); and with a
zero held position the trade is rejected with the reason
`"No <symbol> position to sell"` and the gate state is unchanged. -/
theorem c6_sell_clamping (cfg : App.RiskConfig) (s : App.RiskState) (today : ℤ)
    (strat : App.TradingStrategy) (pf : App.Portfolio) (sym : String) (price : ℚ)
    (hsig : strat.signal = .sell)
    (h1 : s.daily_trades_count < cfg.max_trades_per_day)
    (h2 : s.daily_loss < cfg.trading_budget * cfg.daily_loss_limit)
    (h3 : 3/10 ≤ strat.confidence)
    (hday : ¬ s.last_reset_date < today)
    (htv : cfg.min_trade_amount ≤ App.trade_value cfg strat pf)
    (hmta : 0 < cfg.min_trade_amount)
    (hprice : 0 < price) :
    (0 < pf.positions sym →
      pf.positions sym < App.trade_value cfg strat pf / price →
      (App.validate_trade cfg s today strat pf sym price).2.approved = true ∧
      (App.validate_trade cfg s today strat pf sym price).2.adjusted_quantity =
        pf.positions sym) ∧
    (pf.positions sym = 0 →
      (App.validate_trade cfg s today strat pf sym price).2.approved = false ∧
      (App.validate_trade cfg s today strat pf sym price).2.reason =
        "No " ++ sym ++ " position to sell" ∧
      (App.validate_trade cfg s today strat pf sym price).1 = s) := by
  have hadj : 0 < App.trade_value cfg strat pf / price :=
    div_pos (lt_of_lt_of_le hmta htv) hprice
  constructor
  · intro hpos hlt
    simp only [App.validate_trade]
    rw [reset_noop _ _ hday, if_neg (not_le.2 h1), if_neg (not_le.2 h2),
      if_neg (not_lt.2 h3), if_neg (not_lt.2 htv), hsig,
      if_neg (fun hc => absurd hc.1 (by decide)),
      if_pos (⟨rfl, hlt⟩ : App.TradingSignal.sell = .sell ∧
        pf.positions sym < App.trade_value cfg strat pf / price),
      if_neg (fun hc => absurd hc.2.2 (not_le.2 hpos))]
    exact ⟨rfl, rfl⟩
  · intro hheld
    simp only [App.validate_trade]
    rw [reset_noop _ _ hday, if_neg (not_le.2 h1), if_neg (not_le.2 h2),
      if_neg (not_lt.2 h3), if_neg (not_lt.2 htv), hsig,
      if_neg (fun hc => absurd hc.1 (by decide)), hheld,
      if_pos (⟨rfl, hadj⟩ : App.TradingSignal.sell = .sell ∧
        (0:ℚ) < App.trade_value cfg strat pf / price),
      if_pos (⟨rfl, hadj, le_refl 0⟩ : App.TradingSignal.sell = .sell ∧
        (0:ℚ) < App.trade_value cfg strat pf / price ∧ (0:ℚ) ≤ 0)]
    exact ⟨rfl, rfl, rfl⟩

/-- C6 witness: a sell of computed quantity 0.5 against a held position
of 0.25 is approved with the quantity clamped to 0.25. -/
theorem c6_sell_clamping_witness :
    (App.validate_trade App.appDefault ⟨0, 0, 0⟩ 0
      ⟨.sell, 1/2, some (1/10), none, none⟩ ⟨100, 100, fun _ => 1/4⟩
      "BTC" 20).2.approved = true ∧
    (App.validate_trade App.appDefault ⟨0, 0, 0⟩ 0
      ⟨.sell, 1/2, some (1/10), none, none⟩ ⟨100, 100, fun _ => 1/4⟩
      "BTC" 20).2.adjusted_quantity = 1/4 :=
  (c6_sell_clamping App.appDefault ⟨0, 0, 0⟩ 0
      ⟨.sell, 1/2, some (1/10), none, none⟩ ⟨100, 100, fun _ => 1/4⟩ "BTC" 20
      rfl (by decide) (by norm_num [App.appDefault]) (by norm_num) (by decide)
      (by norm_num [App.trade_value, App.suggested_value, App.max_trade_value,
        App.appDefault])
      (by norm_num [App.appDefault]) (by norm_num)).1
    (by norm_num)
    (by norm_num [App.trade_value, App.suggested_value, App.max_trade_value,
      App.appDefault])

/-!
## Claim C7 — paper-mode round trip
-/

/-- Reading back a just-written position quantity. -/
theorem getQty_setQty (ps : List (String × ℚ)) (sym : String) (q : ℚ) :
    Exec.getQty (Exec.setQty ps sym q) sym = q := by
  induction ps with
  | nil => simp [Exec.setQty, Exec.getQty]
  | cons h t ih =>
    obtain ⟨k, v⟩ := h
    by_cases hk : k = sym
    · simp [Exec.setQty, Exec.getQty, hk]
    · simp [Exec.setQty, Exec.getQty, hk, ih]

/-- C7: in paper mode, from any ledger with enough cash (and a
non-negative held quantity, as every reachable ledger has), a buy of
quantity `q` at price `p` followed by a sell of the same quantity at
the same price fills both orders and returns cash to exactly its
pre-trade value: zero net P&L, no fees. -/
theorem c7_paper_round_trip (pf : Exec.PaperPortfolio) (sym : String) (q p : ℚ)
    (n1 t1 n2 t2 : ℕ) (hcash : q * p ≤ pf.cash)
    (hpos : 0 ≤ Exec.getQty pf.positions sym) :
    ∃ pf1 tr1 pf2 tr2,
      Exec.place_paper_order pf n1 t1 sym .buy .limit q (some p) = some (pf1, tr1) ∧
      Exec.place_paper_order pf1 n2 t2 sym .sell .limit q (some p) = some (pf2, tr2) ∧
      tr1.status = .filled ∧ tr2.status = .filled ∧ pf2.cash = pf.cash := by
  have hq1 : Exec.getQty (Exec.setQty pf.positions sym
      (Exec.getQty pf.positions sym + q)) sym =
      Exec.getQty pf.positions sym + q := getQty_setQty pf.positions sym _
  refine ⟨⟨pf.cash - q * p,
      Exec.setQty pf.positions sym (Exec.getQty pf.positions sym + q),
      pf.cash - q * p + Exec.sumPositions
        (Exec.setQty pf.positions sym (Exec.getQty pf.positions sym + q)) p⟩,
    ⟨some ("paper_" ++ toString t1 ++ "_" ++ toString n1), sym, .buy, .limit, q,
      some p, .filled, some p, some q⟩,
    ⟨pf.cash - q * p + q * p,
      Exec.setQty (Exec.setQty pf.positions sym (Exec.getQty pf.positions sym + q))
        sym (Exec.getQty pf.positions sym + q - q),
      pf.cash - q * p + q * p + Exec.sumPositions
        (Exec.setQty (Exec.setQty pf.positions sym
          (Exec.getQty pf.positions sym + q)) sym
          (Exec.getQty pf.positions sym + q - q)) p⟩,
    ⟨some ("paper_" ++ toString t2 ++ "_" ++ toString n2), sym, .sell, .limit, q,
      some p, .filled, some p, some q⟩, ?_, ?_, rfl, rfl, ?_⟩
  · simp only [Exec.place_paper_order]
    rw [if_pos hcash]
  · simp only [Exec.place_paper_order, hq1]
    rw [if_pos (le_add_of_nonneg_left hpos)]
  · show pf.cash - q * p + q * p = pf.cash
    ring

/-- C7 witness: starting from cash 100 and no positions, buying one
unit at price 10 and selling it back at 10 leaves cash at exactly
100. -/
theorem c7_paper_round_trip_witness :
    ∃ pf1 tr1 pf2 tr2,
      Exec.place_paper_order ⟨100, [], 100⟩ 0 0 "BTC" .buy .limit 1 (some 10) =
        some (pf1, tr1) ∧
      Exec.place_paper_order pf1 1 1 "BTC" .sell .limit 1 (some 10) =
        some (pf2, tr2) ∧
      tr1.status = .filled ∧ tr2.status = .filled ∧ pf2.cash = 100 :=
  c7_paper_round_trip ⟨100, [], 100⟩ "BTC" 1 10 0 0 1 1 (by norm_num)
    (by norm_num [Exec.getQty])

/-!
## Claim C10 — paper-mode order status
-/

/-- C10: in paper mode `get_order_status` answers `FILLED` for every
order id whatever the broker-side status would be — including the id of
a paper order whose stored Trade record was marked `REJECTED` (here a
buy with insufficient cash), so the reported status can disagree with
the stored Trade's terminal status. -/
theorem c10_paper_order_status_always_filled :
    (∀ (order_id : String) (live : Exec.OrderStatus),
      Exec.get_order_status true live order_id = .filled) ∧
    ∃ pf1 tr,
      Exec.place_paper_order ⟨0, [], 0⟩ 0 0 "BTC" .buy .limit 1 (some 10) =
        some (pf1, tr) ∧
      tr.status = .rejected ∧ tr.id = some "paper_0_0" ∧
      Exec.get_order_status true .pending "paper_0_0" = .filled := by
  refine ⟨fun _ _ => rfl,
    ⟨0, [], 0 + Exec.sumPositions [] 10⟩,
    ⟨some ("paper_" ++ toString 0 ++ "_" ++ toString 0), "BTC", .buy, .limit, 1,
      some 10, .rejected, some 10, some 1⟩, ?_, rfl, ?_, rfl⟩
  · simp only [Exec.place_paper_order]
    rw [if_neg (by norm_num : ¬ (1:ℚ) * 10 ≤ 0)]
  · show some ("paper_" ++ toString 0 ++ "_" ++ toString 0) = some "paper_0_0"
    rfl

/-!
## Claim C2 — rate limiter

The window check itself admits at most 100 recorded timestamps, but
`_place_real_order` only sleeps one second when the check refuses and
then submits anyway, without re-checking and without recording the
request, so more than 100 requests can go out inside one rolling
60-second window.
-/

/-- Every call produces exactly one outgoing request: the limiter never
drops or fails a request. -/
theorem run_orders_length (calls : List ℚ) : ∀ ts,
    (Exec.run_orders ts calls).length = calls.length := by
  induction calls with
  | nil => intro ts; rfl
  | cons c rest ih => intro ts; simp only [Exec.run_orders, List.length_cons, ih]

set_option maxRecDepth 4000 in
/-- C2 counterexample: 101 order placements all arriving at time 0 are
all sent inside the window `[0, 60)` — the refused 101st goes out at
time 1 after the one-second sleep — so 101 > 100 requests are sent
within one rolling 60-second window. -/
theorem c2_rate_limit_counterexample :
    ((Exec.run_orders [] (List.replicate 101 0)).filter
      (fun t => decide (0 ≤ t ∧ t < 60))).length = 101 := by
  norm_num [Exec.run_orders, Exec.place_real_order_send, Exec.check_rate_limit,
    List.replicate, List.filter]

/-- C2 (amended): when the sliding window is full the next order is
deferred by the fixed one-second backoff and then sent at `now + 1`
rather than failing outright — but it is sent without re-checking the
limiter, so the at-most-100-per-window bound does not hold (see the
counterexample); and every call results in exactly one sent request. -/
theorem c2_rate_limit_defer (ts : List ℚ) (now : ℚ) (calls : List ℚ)
    (hfull : (Exec.check_rate_limit ts now).1 = false) :
    Exec.place_real_order_send ts now =
      ((Exec.check_rate_limit ts now).2, now + 1) ∧
    (Exec.run_orders ts calls).length = calls.length := by
  constructor
  · simp [Exec.place_real_order_send, hfull]
  · exact run_orders_length calls ts

set_option maxRecDepth 4000 in
/-- C2 witness: with a full window of 100 requests at time 0, the next
order at time 0 is sent at time 1, and two further calls produce two
sends. -/
theorem c2_rate_limit_defer_witness :
    Exec.place_real_order_send (List.replicate 100 0) 0 =
      ((Exec.check_rate_limit (List.replicate 100 0) 0).2, 0 + 1) ∧
    (Exec.run_orders (List.replicate 100 0) [0, 1]).length = 2 :=
  c2_rate_limit_defer (List.replicate 100 0) 0 [0, 1]
    (by norm_num [Exec.check_rate_limit, List.replicate, List.filter])

/-!
## Claim C8 — signal synthesis thresholds and strength

The two threshold rules hold, but the emitted strength is not always in
[0,1]: the sell branch computes `(1.2 − score) × confidence` with no
clamp, which reaches 1.35 at score −0.3, confidence 0.9.
-/

/-- C8 counterexample: with technical −1, ML class 0 and confidence 0.9
(threshold 0.55) the emitted action is sell and the emitted strength is
1.35, outside [0,1]. -/
theorem c8_strength_counterexample :
    (SE.combine_signals (11/20) (-1) 0 (9/10)).1 = .sell ∧
    ¬ (SE.combine_signals (11/20) (-1) 0 (9/10)).2 ≤ 1 := by
  norm_num [SE.combine_signals, SE.weighted_signal]

/-- C8 (amended): the action is buy iff the weighted composite score
`technical*0.3 + ml*0.7` is ≥ 1.2 and the ML confidence reaches the
threshold, sell iff the score is ≤ 0.8 and the confidence reaches the
threshold, and hold otherwise; the strength lies in [0,1] for buy and
hold, while for sell it equals the unclamped `(1.2 − score) ×
confidence`, which is only bounded by [0, 3/2] (and can exceed 1). -/
theorem c8_combine_signals (th conf : ℚ) (t m : ℤ)
    (hc0 : 0 ≤ conf) (hc1 : conf ≤ 1)
    (ht : -1 ≤ t) (ht1 : t ≤ 1) (hm : 0 ≤ m) (hm2 : m ≤ 2) :
    ((SE.combine_signals th t m conf).1 = .buy ↔
      (12/10 ≤ SE.weighted_signal t m ∧ th ≤ conf)) ∧
    ((SE.combine_signals th t m conf).1 = .sell ↔
      (SE.weighted_signal t m ≤ 8/10 ∧ th ≤ conf)) ∧
    ((SE.combine_signals th t m conf).1 = .buy ∨
        (SE.combine_signals th t m conf).1 = .hold →
      0 ≤ (SE.combine_signals th t m conf).2 ∧
      (SE.combine_signals th t m conf).2 ≤ 1) ∧
    ((SE.combine_signals th t m conf).1 = .sell →
      (SE.combine_signals th t m conf).2 =
        (12/10 - SE.weighted_signal t m) * conf ∧
      0 ≤ (SE.combine_signals th t m conf).2 ∧
      (SE.combine_signals th t m conf).2 ≤ 3/2) := by
  have htq : (-1:ℚ) ≤ (t:ℚ) := by exact_mod_cast ht
  have htq1 : (t:ℚ) ≤ 1 := by exact_mod_cast ht1
  have hmq : (0:ℚ) ≤ (m:ℚ) := by exact_mod_cast hm
  have hmq2 : (m:ℚ) ≤ 2 := by exact_mod_cast hm2
  have hwlo : (-3/10 : ℚ) ≤ SE.weighted_signal t m := by
    simp only [SE.weighted_signal]; nlinarith
  by_cases hbuy : 12/10 ≤ SE.weighted_signal t m ∧ th ≤ conf
  · have hcs : SE.combine_signals th t m conf =
        (.buy, min (SE.weighted_signal t m - 8/10) 1 * conf) := by
      simp only [SE.combine_signals]; rw [if_pos hbuy]
    rw [hcs]
    refine ⟨iff_of_true rfl hbuy,
      iff_of_false (by simp) (fun hs => by linarith [hbuy.1, hs.1]),
      fun _ => ⟨?_, ?_⟩, fun hs => absurd hs (by simp)⟩
    · exact mul_nonneg (le_min (by linarith [hbuy.1]) (by norm_num)) hc0
    · have h1 : min (SE.weighted_signal t m - 8/10) 1 ≤ 1 := min_le_right _ _
      have h2 : (0:ℚ) ≤ min (SE.weighted_signal t m - 8/10) 1 :=
        le_min (by linarith [hbuy.1]) (by norm_num)
      nlinarith
  · by_cases hsell : SE.weighted_signal t m ≤ 8/10 ∧ th ≤ conf
    · have hcs : SE.combine_signals th t m conf =
          (.sell, (12/10 - SE.weighted_signal t m) * conf) := by
        simp only [SE.combine_signals]; rw [if_neg hbuy, if_pos hsell]
      rw [hcs]
      refine ⟨iff_of_false (by simp) hbuy, iff_of_true rfl hsell,
        ?_, fun _ => ⟨rfl, ?_, ?_⟩⟩
      · rintro (h | h) <;> exact absurd h (by simp)
      · exact mul_nonneg (by linarith [hsell.1]) hc0
      · have h1 : (0:ℚ) ≤ 12/10 - SE.weighted_signal t m := by linarith [hsell.1]
        have h2 : (12/10 - SE.weighted_signal t m) * conf ≤
            (12/10 - SE.weighted_signal t m) * 1 := mul_le_mul_of_nonneg_left hc1 h1
        rw [mul_one] at h2
        linarith
    · have hcs : SE.combine_signals th t m conf = (.hold, 0) := by
        simp only [SE.combine_signals]; rw [if_neg hbuy, if_neg hsell]
      rw [hcs]
      exact ⟨iff_of_false (by simp) hbuy, iff_of_false (by simp) hsell,
        fun _ => ⟨by norm_num, by norm_num⟩, fun hs => absurd hs (by simp)⟩

/-- C8 witness: the amended theorem applied at technical −1, ML class
0, confidence 0.9, threshold 0.55: the sell strength is the unclamped
`(1.2 − (−0.3)) × 0.9`. -/
theorem c8_combine_signals_witness :
    (SE.combine_signals (11/20) (-1) 0 (9/10)).2 =
      (12/10 - SE.weighted_signal (-1) 0) * (9/10) ∧
    0 ≤ (SE.combine_signals (11/20) (-1) 0 (9/10)).2 ∧
    (SE.combine_signals (11/20) (-1) 0 (9/10)).2 ≤ 3/2 :=
  (c8_combine_signals (11/20) (9/10) (-1) 0 (by norm_num) (by norm_num)
    (by norm_num) (by norm_num) (by norm_num) (by norm_num)).2.2.2
    (by norm_num [SE.combine_signals, SE.weighted_signal])

/-!
## Claim C9 — health-monitor restart cap

`restart_bot` logs "Maximum restart attempts reached, manual
intervention required" when `error_count` reaches `max_errors`, but
nothing stops further restarts: `monitor_health` invokes `restart_bot`
(a stop+start) on **every** failed health check whose incremented count
is ≥ `max_errors`.  The cap announced by the log message is not
enforced.
-/

/-- C9: evaluating the monitor at and beyond the cap.  With
`error_count` already at `max_errors` (5) and a failing health check
and failing restarts, each `monitor_health` pass still issues exactly
one `restart_bot` (stop+start) — 10 consecutive passes issue 10
restarts — contradicting the claim that beyond the cap only a critical
alert is logged and no restart occurs. -/
theorem c9_restart_after_cap :
    (Mon.monitor_health 5 true false false false).2 = 1 ∧
    (Mon.monitor_health 6 true false false false).2 = 1 ∧
    (Mon.monitor_health 100 true false false false).2 = 1 ∧
    (Mon.run_monitor 5 true false false false 10).2 = 10 := by decide
